import Mathlib

/-!
Verification development for the HackHarvard2025 multi-agent carbon-routing
system.  The optimization engine's scoring formula and the API request
validation model are embedded from the code quoted in
`backend/Priority_Implementation.md`; the response / data-model shapes come
from the TypeScript interfaces in `frontend/src/services/api.ts`
(`src/unnamed/part_000`) and the components in `frontend/src/App.tsx` and
`src/unnamed/part_001`.  Parts of the backend that are present in the
repository only through their documentation are modelled from the spec and
marked as such in their doc comments.  Numeric quantities are embedded as
rationals (`ℚ`).
-/

namespace CarbonRouting

/-- The user-selectable optimization priority.  From `RouteRequest.priority`
in `services/api.ts`: `'cost' | 'speed' | 'carbon' | 'balanced'`. -/
inductive Priority where
  | cost
  | speed
  | carbon
  | balanced
deriving DecidableEq, Repr

/-- A fully merged per-route bundle, as consumed by
`calculate_priority_score` in `optimizer_agent.py` (quoted in
`Priority_Implementation.md`): total cost (base + regulatory + credit),
transit days and total emissions, plus the fields the ranking tie-break
uses (reliability score, number of transport segments, identifier) from
`RouteOption` in `services/api.ts`. -/
structure RouteData where
  id : ℕ
  totalCost : ℚ
  transitDays : ℚ
  totalEmissions : ℚ
  reliability : ℚ
  segments : ℕ
deriving DecidableEq, Repr

/-- Minimum of a metric over a non-empty candidate list (`min_cost`,
`min_time`, `min_emissions` in the quoted normalization code). -/
def metricMin (f : RouteData → ℚ) : List RouteData → ℚ
  | [] => 0
  | r :: rs => rs.foldl (fun m x => min m (f x)) (f r)

/-- Maximum of a metric over a non-empty candidate list (`max_cost`,
`max_time`, `max_emissions` in the quoted normalization code). -/
def metricMax (f : RouteData → ℚ) : List RouteData → ℚ
  | [] => 0
  | r :: rs => rs.foldl (fun m x => max m (f x)) (f r)

/-- Metric normalization, `score = 1 - (value - min) / (max - min)` as in
the quoted code of `optimizer_agent.py`.  The tied branch is Modelled from
the spec: the full body of the normalization in `optimizer_agent.py` is not
in the repository snapshot, and the spec states that when `max == min` the
normalized score is defined as `1.0` for all candidates so that no division
by zero occurs. -/
def normalizeScore (value mn mx : ℚ) : ℚ :=
  if mx = mn then 1 else 1 - (value - mn) / (mx - mn)

/-- Normalized cost score of a route against a candidate set. -/
def costScore (r : RouteData) (all : List RouteData) : ℚ :=
  normalizeScore r.totalCost (metricMin (·.totalCost) all) (metricMax (·.totalCost) all)

/-- Normalized time score of a route against a candidate set. -/
def timeScore (r : RouteData) (all : List RouteData) : ℚ :=
  normalizeScore r.transitDays (metricMin (·.transitDays) all) (metricMax (·.transitDays) all)

/-- Normalized emission score of a route against a candidate set. -/
def emissionScore (r : RouteData) (all : List RouteData) : ℚ :=
  normalizeScore r.totalEmissions (metricMin (·.totalEmissions) all) (metricMax (·.totalEmissions) all)

/-- `calculate_priority_score` from `optimizer_agent.py`, as quoted in
`Priority_Implementation.md`: normalize the three metrics over the whole
candidate set, then combine them with the weight triple selected by the
`if/elif/else` chain on the priority. -/
def calculate_priority_score (route : RouteData) (priority : Priority)
    (all_routes : List RouteData) : ℚ :=
  let cost_score := costScore route all_routes
  let time_score := timeScore route all_routes
  let emission_score := emissionScore route all_routes
  match priority with
  | .cost => 70/100 * cost_score + 15/100 * time_score + 15/100 * emission_score
  | .speed => 15/100 * cost_score + 70/100 * time_score + 15/100 * emission_score
  | .carbon => 15/100 * cost_score + 15/100 * time_score + 70/100 * emission_score
  | .balanced => 33/100 * cost_score + 33/100 * time_score + 34/100 * emission_score

/-- The weight triple `(cost_w, time_w, emissions_w)` attached to each
priority by the branches of `calculate_priority_score`. -/
def weightTriple : Priority → ℚ × ℚ × ℚ
  | .cost => (70/100, 15/100, 15/100)
  | .speed => (15/100, 70/100, 15/100)
  | .carbon => (15/100, 15/100, 70/100)
  | .balanced => (33/100, 33/100, 34/100)

section MetricLemmas

variable (f : RouteData → ℚ)

theorem foldl_min_le_init (l : List RouteData) (a : ℚ) :
    l.foldl (fun m y => min m (f y)) a ≤ a := by
  induction l generalizing a with
  | nil => exact le_refl a
  | cons b l ih =>
      calc (b :: l).foldl (fun m y => min m (f y)) a
          = l.foldl (fun m y => min m (f y)) (min a (f b)) := rfl
        _ ≤ min a (f b) := ih _
        _ ≤ a := min_le_left _ _

theorem foldl_min_le_mem (l : List RouteData) :
    ∀ (a : ℚ) (x : RouteData), x ∈ l → l.foldl (fun m y => min m (f y)) a ≤ f x := by
  induction l with
  | nil => intro a x hx; cases hx
  | cons b l ih =>
      intro a x hx
      simp only [List.foldl_cons]
      rcases List.mem_cons.mp hx with h | h
      · subst h
        exact le_trans (foldl_min_le_init f l _) (min_le_right _ _)
      · exact ih _ x h

theorem metricMin_le_of_mem {l : List RouteData} {x : RouteData} (hx : x ∈ l) :
    metricMin f l ≤ f x := by
  cases l with
  | nil => cases hx
  | cons r rs =>
      simp only [metricMin]
      rcases List.mem_cons.mp hx with h | h
      · subst h
        exact foldl_min_le_init f rs (f x)
      · exact foldl_min_le_mem f rs (f r) x h

theorem foldl_max_init_le (l : List RouteData) (a : ℚ) :
    a ≤ l.foldl (fun m y => max m (f y)) a := by
  induction l generalizing a with
  | nil => exact le_refl a
  | cons b l ih =>
      calc a ≤ max a (f b) := le_max_left _ _
        _ ≤ l.foldl (fun m y => max m (f y)) (max a (f b)) := ih _

theorem foldl_max_mem_le (l : List RouteData) :
    ∀ (a : ℚ) (x : RouteData), x ∈ l → f x ≤ l.foldl (fun m y => max m (f y)) a := by
  induction l with
  | nil => intro a x hx; cases hx
  | cons b l ih =>
      intro a x hx
      simp only [List.foldl_cons]
      rcases List.mem_cons.mp hx with h | h
      · subst h
        exact le_trans (le_max_right _ _) (foldl_max_init_le f l _)
      · exact ih _ x h

theorem le_metricMax_of_mem {l : List RouteData} {x : RouteData} (hx : x ∈ l) :
    f x ≤ metricMax f l := by
  cases l with
  | nil => cases hx
  | cons r rs =>
      simp only [metricMax]
      rcases List.mem_cons.mp hx with h | h
      · subst h
        exact foldl_max_init_le f rs (f x)
      · exact foldl_max_mem_le f rs (f r) x h

end MetricLemmas

/-- A normalized score lies in `[0,1]` whenever the value lies between the
min and the max it is normalized against. -/
theorem normalizeScore_mem_unit {value mn mx : ℚ} (h₁ : mn ≤ value) (h₂ : value ≤ mx) :
    0 ≤ normalizeScore value mn mx ∧ normalizeScore value mn mx ≤ 1 := by
  unfold normalizeScore
  split
  · exact ⟨zero_le_one, le_refl 1⟩
  · rename_i hne
    have hlt : mn < mx := lt_of_le_of_ne (le_trans h₁ h₂) (fun h => hne h.symm)
    have hpos : 0 < mx - mn := sub_pos.mpr hlt
    constructor
    · have : (value - mn) / (mx - mn) ≤ 1 := by
        rw [div_le_one hpos]; linarith
      linarith
    · have : 0 ≤ (value - mn) / (mx - mn) := by
        apply div_nonneg <;> linarith
      linarith

theorem costScore_mem_unit {r : RouteData} {l : List RouteData} (hr : r ∈ l) :
    0 ≤ costScore r l ∧ costScore r l ≤ 1 :=
  normalizeScore_mem_unit (metricMin_le_of_mem _ hr) (le_metricMax_of_mem _ hr)

theorem timeScore_mem_unit {r : RouteData} {l : List RouteData} (hr : r ∈ l) :
    0 ≤ timeScore r l ∧ timeScore r l ≤ 1 :=
  normalizeScore_mem_unit (metricMin_le_of_mem _ hr) (le_metricMax_of_mem _ hr)

theorem emissionScore_mem_unit {r : RouteData} {l : List RouteData} (hr : r ∈ l) :
    0 ≤ emissionScore r l ∧ emissionScore r l ≤ 1 :=
  normalizeScore_mem_unit (metricMin_le_of_mem _ hr) (le_metricMax_of_mem _ hr)

/-- The final score of every member of the candidate set lies in `[0,1]`. -/
theorem calculate_priority_score_mem_unit {r : RouteData} {l : List RouteData}
    (hr : r ∈ l) (p : Priority) :
    0 ≤ calculate_priority_score r p l ∧ calculate_priority_score r p l ≤ 1 := by
  obtain ⟨hc0, hc1⟩ := costScore_mem_unit hr
  obtain ⟨ht0, ht1⟩ := timeScore_mem_unit hr
  obtain ⟨he0, he1⟩ := emissionScore_mem_unit hr
  unfold calculate_priority_score
  cases p <;> constructor <;> dsimp only <;> linarith

/-- Ranking comparison between two routes.  Modelled from the spec: the
ranking code of `optimizer_agent.py` is present in the repository only
through its documentation; the spec sorts descending by final score, ties
broken by higher reliability estimate, then fewer transport segments, then
candidate identifier. -/
def rankBefore (p : Priority) (all : List RouteData) (a b : RouteData) : Prop :=
  calculate_priority_score b p all < calculate_priority_score a p all ∨
    (calculate_priority_score a p all = calculate_priority_score b p all ∧
      (b.reliability < a.reliability ∨
        (a.reliability = b.reliability ∧
          (a.segments < b.segments ∨
            (a.segments = b.segments ∧ a.id ≤ b.id)))))

instance rankBeforeDecidable (p : Priority) (all : List RouteData) :
    DecidableRel (rankBefore p all) := fun a b => by
  unfold rankBefore
  exact inferInstance

/-- Insert a route into an already ranked list, keeping the better-ranked
routes first.  Modelled from the spec (deterministic descending sort). -/
def insertRanked (le : RouteData → RouteData → Prop) [DecidableRel le]
    (a : RouteData) : List RouteData → List RouteData
  | [] => [a]
  | b :: l => if le a b then a :: b :: l else b :: insertRanked le a l

/-- Sort the merged candidate set into ranked order.  Modelled from the
spec (§4.2 Ranking): sort descending by final score with the deterministic
tie-break of `rankBefore`. -/
def sortRanked (le : RouteData → RouteData → Prop) [DecidableRel le] :
    List RouteData → List RouteData
  | [] => []
  | a :: l => insertRanked le a (sortRanked le l)

/-- The ranked list of routes for a request. -/
def rankRoutes (p : Priority) (routes : List RouteData) : List RouteData :=
  sortRanked (rankBefore p routes) routes

/-- The top-ranked route, returned as `recommended_route`; the rest become
`alternatives`.  Modelled from the spec (§4.2). -/
def recommendedRoute (p : Priority) (routes : List RouteData) : Option RouteData :=
  (rankRoutes p routes).head?

theorem insertRanked_perm (le : RouteData → RouteData → Prop) [DecidableRel le]
    (a : RouteData) : ∀ l : List RouteData, List.Perm (insertRanked le a l) (a :: l) := by
  intro l
  induction l with
  | nil => exact List.Perm.refl _
  | cons b l ih =>
      simp only [insertRanked]
      split
      · exact List.Perm.refl _
      · exact List.Perm.trans (List.Perm.cons b ih) (List.Perm.swap a b l)

theorem sortRanked_perm (le : RouteData → RouteData → Prop) [DecidableRel le] :
    ∀ l : List RouteData, List.Perm (sortRanked le l) l := by
  intro l
  induction l with
  | nil => exact List.Perm.refl _
  | cons a l ih =>
      simp only [sortRanked]
      exact List.Perm.trans (insertRanked_perm le a _) (List.Perm.cons a ih)

theorem score_le_of_rankBefore {p : Priority} {all : List RouteData}
    {a b : RouteData} (h : rankBefore p all a b) :
    calculate_priority_score b p all ≤ calculate_priority_score a p all := by
  rcases h with h | ⟨h, -⟩
  · exact le_of_lt h
  · exact le_of_eq h.symm

theorem rankBefore_total (p : Priority) (all : List RouteData) (a b : RouteData) :
    rankBefore p all a b ∨ rankBefore p all b a := by
  unfold rankBefore
  rcases lt_trichotomy (calculate_priority_score a p all)
      (calculate_priority_score b p all) with h | h | h
  · right; exact Or.inl h
  · rcases lt_trichotomy a.reliability b.reliability with h2 | h2 | h2
    · right; exact Or.inr ⟨h.symm, Or.inl h2⟩
    · rcases Nat.lt_trichotomy a.segments b.segments with h3 | h3 | h3
      · left; exact Or.inr ⟨h, Or.inr ⟨h2, Or.inl h3⟩⟩
      · rcases Nat.le_total a.id b.id with h4 | h4
        · left; exact Or.inr ⟨h, Or.inr ⟨h2, Or.inr ⟨h3, h4⟩⟩⟩
        · right; exact Or.inr ⟨h.symm, Or.inr ⟨h2.symm, Or.inr ⟨h3.symm, h4⟩⟩⟩
      · right; exact Or.inr ⟨h.symm, Or.inr ⟨h2.symm, Or.inl h3⟩⟩
    · left; exact Or.inr ⟨h, Or.inl h2⟩
  · left; exact Or.inl h

/-- The head of the ranked list carries the maximal final score among the
sorted candidates. -/
theorem sortRanked_head_max (p : Priority) (all : List RouteData) :
    ∀ (l : List RouteData) (h : RouteData) (t : List RouteData),
      sortRanked (rankBefore p all) l = h :: t →
      ∀ x ∈ l, calculate_priority_score x p all ≤ calculate_priority_score h p all := by
  intro l
  induction l with
  | nil => intro h t heq; simp [sortRanked] at heq
  | cons a l ih =>
      intro h t heq x hx
      simp only [sortRanked] at heq
      cases hsl : sortRanked (rankBefore p all) l with
      | nil =>
          have hperm := sortRanked_perm (rankBefore p all) l
          rw [hsl] at hperm
          have hlnil : l = [] := hperm.symm.eq_nil
          rw [hsl] at heq
          simp only [insertRanked, List.cons.injEq] at heq
          obtain ⟨rfl, -⟩ := heq
          subst hlnil
          rcases List.mem_cons.mp hx with hxa | hxa
          · subst hxa; exact le_refl _
          · cases hxa
      | cons b t' =>
          have ihb := ih b t' hsl
          rw [hsl] at heq
          simp only [insertRanked] at heq
          by_cases hab : rankBefore p all a b
          · rw [if_pos hab] at heq
            rw [List.cons.injEq] at heq
            obtain ⟨rfl, -⟩ := heq
            rcases List.mem_cons.mp hx with hxa | hxa
            · subst hxa; exact le_refl _
            · exact le_trans (ihb x hxa) (score_le_of_rankBefore hab)
          · rw [if_neg hab] at heq
            rw [List.cons.injEq] at heq
            obtain ⟨rfl, -⟩ := heq
            rcases List.mem_cons.mp hx with hxa | hxa
            · subst hxa
              have hba : rankBefore p all b x :=
                (rankBefore_total p all x b).resolve_left hab
              exact score_le_of_rankBefore hba
            · exact ihb x hxa

/-- C1: for every request with at least two viable candidates and a fixed
priority, the final score computed for each route lies in the closed
interval `[0,1]`, and the route returned as `recommended_route` is a member
of the candidate set whose final score is maximal. -/
theorem C1_scores_unit_and_recommended_max (p : Priority) (routes : List RouteData)
    (h2 : 2 ≤ routes.length) :
    (∀ r ∈ routes, 0 ≤ calculate_priority_score r p routes ∧
        calculate_priority_score r p routes ≤ 1) ∧
      ∃ best, recommendedRoute p routes = some best ∧ best ∈ routes ∧
        ∀ r ∈ routes, calculate_priority_score r p routes ≤
          calculate_priority_score best p routes := by
  constructor
  · intro r hr
    exact calculate_priority_score_mem_unit hr p
  · cases hsr : rankRoutes p routes with
    | nil =>
        exfalso
        have hperm := sortRanked_perm (rankBefore p routes) routes
        rw [show sortRanked (rankBefore p routes) routes = rankRoutes p routes from rfl,
          hsr] at hperm
        have : routes = [] := hperm.symm.eq_nil
        rw [this] at h2
        simp at h2
    | cons best t =>
        refine ⟨best, ?_, ?_, ?_⟩
        · simp [recommendedRoute, hsr]
        · have hperm := sortRanked_perm (rankBefore p routes) routes
          rw [show sortRanked (rankBefore p routes) routes = rankRoutes p routes from rfl,
            hsr] at hperm
          exact hperm.mem_iff.mp (List.mem_cons_self best t)
        · exact sortRanked_head_max p routes routes best t hsr

/-! ### The Shanghai → Berlin demo scenario

The three candidates of the end-to-end scenario (`Priority_Implementation.md`
"Real Example" table and the `results` fixture of `src/unnamed/part_001`):
Sea+Rail at total cost 1900 (subsidy already netted), 20 days, 450 kg;
Sea+Truck at 2500, 18 days, 680 kg; Air at 8150, 2 days, 4200 kg.
Reliability and segment counts are not given by the scenario and do not
affect it (all final scores are distinct). -/

/-- Sea Freight → Rail candidate of the demo scenario. -/
def seaRail : RouteData := ⟨1, 1900, 20, 450, 92/100, 2⟩

/-- Sea Freight → Truck candidate of the demo scenario. -/
def seaTruck : RouteData := ⟨2, 2500, 18, 680, 88/100, 2⟩

/-- Air Freight Direct candidate of the demo scenario. -/
def airDirect : RouteData := ⟨3, 8150, 2, 4200, 95/100, 1⟩

/-- The demo candidate set. -/
def demoRoutes : List RouteData := [seaRail, seaTruck, airDirect]

theorem demo_score_balanced_seaRail :
    calculate_priority_score seaRail .balanced demoRoutes = 67/100 := by
  norm_num [calculate_priority_score, costScore, timeScore, emissionScore,
    normalizeScore, metricMin, metricMax, demoRoutes, seaRail, seaTruck,
    airDirect, List.foldl, min_def, max_def]

theorem demo_score_balanced_seaTruck :
    calculate_priority_score seaTruck .balanced demoRoutes = 2453/3750 := by
  norm_num [calculate_priority_score, costScore, timeScore, emissionScore,
    normalizeScore, metricMin, metricMax, demoRoutes, seaRail, seaTruck,
    airDirect, List.foldl, min_def, max_def]

theorem demo_score_balanced_airDirect :
    calculate_priority_score airDirect .balanced demoRoutes = 33/100 := by
  norm_num [calculate_priority_score, costScore, timeScore, emissionScore,
    normalizeScore, metricMin, metricMax, demoRoutes, seaRail, seaTruck,
    airDirect, List.foldl, min_def, max_def]

theorem demo_score_speed_seaRail :
    calculate_priority_score seaRail .speed demoRoutes = 3/10 := by
  norm_num [calculate_priority_score, costScore, timeScore, emissionScore,
    normalizeScore, metricMin, metricMax, demoRoutes, seaRail, seaTruck,
    airDirect, List.foldl, min_def, max_def]

theorem demo_score_speed_seaTruck :
    calculate_priority_score seaTruck .speed demoRoutes = 7969/22500 := by
  norm_num [calculate_priority_score, costScore, timeScore, emissionScore,
    normalizeScore, metricMin, metricMax, demoRoutes, seaRail, seaTruck,
    airDirect, List.foldl, min_def, max_def]

theorem demo_score_speed_airDirect :
    calculate_priority_score airDirect .speed demoRoutes = 7/10 := by
  norm_num [calculate_priority_score, costScore, timeScore, emissionScore,
    normalizeScore, metricMin, metricMax, demoRoutes, seaRail, seaTruck,
    airDirect, List.foldl, min_def, max_def]

theorem demo_score_cost_seaRail :
    calculate_priority_score seaRail .cost demoRoutes = 17/20 := by
  norm_num [calculate_priority_score, costScore, timeScore, emissionScore,
    normalizeScore, metricMin, metricMax, demoRoutes, seaRail, seaTruck,
    airDirect, List.foldl, min_def, max_def]

theorem demo_score_cost_seaTruck :
    calculate_priority_score seaTruck .cost demoRoutes = 5927/7500 := by
  norm_num [calculate_priority_score, costScore, timeScore, emissionScore,
    normalizeScore, metricMin, metricMax, demoRoutes, seaRail, seaTruck,
    airDirect, List.foldl, min_def, max_def]

theorem demo_score_cost_airDirect :
    calculate_priority_score airDirect .cost demoRoutes = 3/20 := by
  norm_num [calculate_priority_score, costScore, timeScore, emissionScore,
    normalizeScore, metricMin, metricMax, demoRoutes, seaRail, seaTruck,
    airDirect, List.foldl, min_def, max_def]

theorem demo_score_carbon_seaRail :
    calculate_priority_score seaRail .carbon demoRoutes = 17/20 := by
  norm_num [calculate_priority_score, costScore, timeScore, emissionScore,
    normalizeScore, metricMin, metricMax, demoRoutes, seaRail, seaTruck,
    airDirect, List.foldl, min_def, max_def]

theorem demo_score_carbon_seaTruck :
    calculate_priority_score seaTruck .carbon demoRoutes = 607/750 := by
  norm_num [calculate_priority_score, costScore, timeScore, emissionScore,
    normalizeScore, metricMin, metricMax, demoRoutes, seaRail, seaTruck,
    airDirect, List.foldl, min_def, max_def]

theorem demo_score_carbon_airDirect :
    calculate_priority_score airDirect .carbon demoRoutes = 3/20 := by
  norm_num [calculate_priority_score, costScore, timeScore, emissionScore,
    normalizeScore, metricMin, metricMax, demoRoutes, seaRail, seaTruck,
    airDirect, List.foldl, min_def, max_def]

theorem sortRanked_three_sorted (le : RouteData → RouteData → Prop)
    [DecidableRel le] (a b c : RouteData) (hab : le a b) (hbc : le b c) :
    sortRanked le [a, b, c] = [a, b, c] := by
  simp only [sortRanked, insertRanked]
  rw [if_pos hbc]
  simp only [insertRanked]
  rw [if_pos hab]

theorem sortRanked_three_rev (le : RouteData → RouteData → Prop)
    [DecidableRel le] (a b c : RouteData)
    (hbc : ¬ le b c) (hac : ¬ le a c) (hab : ¬ le a b) :
    sortRanked le [a, b, c] = [c, b, a] := by
  simp only [sortRanked, insertRanked]
  rw [if_neg hbc]
  simp only [insertRanked]
  rw [if_neg hac, if_neg hab]

theorem demo_rank_balanced :
    rankRoutes .balanced demoRoutes = [seaRail, seaTruck, airDirect] := by
  have hab : rankBefore .balanced demoRoutes seaRail seaTruck :=
    Or.inl (by rw [demo_score_balanced_seaTruck, demo_score_balanced_seaRail]; norm_num)
  have hbc : rankBefore .balanced demoRoutes seaTruck airDirect :=
    Or.inl (by rw [demo_score_balanced_airDirect, demo_score_balanced_seaTruck]; norm_num)
  exact sortRanked_three_sorted _ _ _ _ hab hbc

theorem demo_rank_speed :
    rankRoutes .speed demoRoutes = [airDirect, seaTruck, seaRail] := by
  have hbc : ¬ rankBefore .speed demoRoutes seaTruck airDirect := by
    simp only [rankBefore, demo_score_speed_seaTruck, demo_score_speed_airDirect]
    norm_num
  have hac : ¬ rankBefore .speed demoRoutes seaRail airDirect := by
    simp only [rankBefore, demo_score_speed_seaRail, demo_score_speed_airDirect]
    norm_num
  have hab : ¬ rankBefore .speed demoRoutes seaRail seaTruck := by
    simp only [rankBefore, demo_score_speed_seaRail, demo_score_speed_seaTruck]
    norm_num
  exact sortRanked_three_rev _ _ _ _ hbc hac hab

theorem demo_rank_cost :
    rankRoutes .cost demoRoutes = [seaRail, seaTruck, airDirect] := by
  have hab : rankBefore .cost demoRoutes seaRail seaTruck :=
    Or.inl (by rw [demo_score_cost_seaTruck, demo_score_cost_seaRail]; norm_num)
  have hbc : rankBefore .cost demoRoutes seaTruck airDirect :=
    Or.inl (by rw [demo_score_cost_airDirect, demo_score_cost_seaTruck]; norm_num)
  exact sortRanked_three_sorted _ _ _ _ hab hbc

theorem demo_rank_carbon :
    rankRoutes .carbon demoRoutes = [seaRail, seaTruck, airDirect] := by
  have hab : rankBefore .carbon demoRoutes seaRail seaTruck :=
    Or.inl (by rw [demo_score_carbon_seaTruck, demo_score_carbon_seaRail]; norm_num)
  have hbc : rankBefore .carbon demoRoutes seaTruck airDirect :=
    Or.inl (by rw [demo_score_carbon_airDirect, demo_score_carbon_seaTruck]; norm_num)
  exact sortRanked_three_sorted _ _ _ _ hab hbc

/-- C2 counterexample: under the `speed` priority the recommended route of
the demo scenario is indeed Air Direct, but its final score — computed by
`calculate_priority_score` exactly as the quoted code prescribes
(`0.15·cost + 0.70·time + 0.15·emissions` on normalized metrics) — is
`0.70`, which is `0.15` below the `≈0.85` the claim asserts, so the claim
as stated is false on this concrete input. -/
theorem C2_counterexample :
    calculate_priority_score airDirect .speed demoRoutes = 7/10 ∧
      ¬ ((8/10 : ℚ) ≤ calculate_priority_score airDirect .speed demoRoutes) ∧
      (85/100 - calculate_priority_score airDirect .speed demoRoutes : ℚ) = 15/100 := by
  refine ⟨demo_score_speed_airDirect, ?_, ?_⟩
  · rw [demo_score_speed_airDirect]; norm_num
  · rw [demo_score_speed_airDirect]; norm_num

/-- C2 (amended): for the fixed three-candidate demo set, the pipeline
ranks Sea+Rail first with score exactly `0.67` under `balanced`, ranks Air
first under `speed` with score `0.70` (not `≈0.85`), and ranks Sea+Rail
first under both `cost` and `carbon`. -/
theorem C2_demo_scenario_rankings :
    recommendedRoute .balanced demoRoutes = some seaRail ∧
      calculate_priority_score seaRail .balanced demoRoutes = 67/100 ∧
      recommendedRoute .speed demoRoutes = some airDirect ∧
      calculate_priority_score airDirect .speed demoRoutes = 7/10 ∧
      recommendedRoute .cost demoRoutes = some seaRail ∧
      recommendedRoute .carbon demoRoutes = some seaRail := by
  refine ⟨?_, demo_score_balanced_seaRail, ?_, demo_score_speed_airDirect, ?_, ?_⟩
  · rw [recommendedRoute, demo_rank_balanced]; rfl
  · rw [recommendedRoute, demo_rank_speed]; rfl
  · rw [recommendedRoute, demo_rank_cost]; rfl
  · rw [recommendedRoute, demo_rank_carbon]; rfl

theorem normalizeScore_eq_cases (value mn mx : ℚ) :
    (mx = mn → normalizeScore value mn mx = 1) ∧
      (mx ≠ mn → normalizeScore value mn mx = 1 - (value - mn) / (mx - mn)) := by
  unfold normalizeScore
  constructor
  · intro h; rw [if_pos h]
  · intro h; rw [if_neg h]

/-- C1: for every request with at least two viable candidates and a fixed
priority, witnessed on the demo candidate set under `balanced`. -/
theorem C1_witness :
    (∀ r ∈ demoRoutes, 0 ≤ calculate_priority_score r .balanced demoRoutes ∧
        calculate_priority_score r .balanced demoRoutes ≤ 1) ∧
      ∃ best, recommendedRoute .balanced demoRoutes = some best ∧ best ∈ demoRoutes ∧
        ∀ r ∈ demoRoutes, calculate_priority_score r .balanced demoRoutes ≤
          calculate_priority_score best .balanced demoRoutes :=
  C1_scores_unit_and_recommended_max .balanced demoRoutes (by simp [demoRoutes])

/-- C3: for each of the three metrics, whenever max equals min across the
candidate set the normalized score is defined to be `1.0` for every
candidate (so the normalization never divides by zero), and in the
non-tied case it equals `1 − (value − min) / (max − min)`. -/
theorem C3_normalization_tie_and_formula (routes : List RouteData) (r : RouteData)
    (_hr : r ∈ routes) :
    ((metricMax (·.totalCost) routes = metricMin (·.totalCost) routes →
        costScore r routes = 1) ∧
      (metricMax (·.totalCost) routes ≠ metricMin (·.totalCost) routes →
        costScore r routes = 1 - (r.totalCost - metricMin (·.totalCost) routes) /
          (metricMax (·.totalCost) routes - metricMin (·.totalCost) routes))) ∧
    ((metricMax (·.transitDays) routes = metricMin (·.transitDays) routes →
        timeScore r routes = 1) ∧
      (metricMax (·.transitDays) routes ≠ metricMin (·.transitDays) routes →
        timeScore r routes = 1 - (r.transitDays - metricMin (·.transitDays) routes) /
          (metricMax (·.transitDays) routes - metricMin (·.transitDays) routes))) ∧
    ((metricMax (·.totalEmissions) routes = metricMin (·.totalEmissions) routes →
        emissionScore r routes = 1) ∧
      (metricMax (·.totalEmissions) routes ≠ metricMin (·.totalEmissions) routes →
        emissionScore r routes = 1 - (r.totalEmissions - metricMin (·.totalEmissions) routes) /
          (metricMax (·.totalEmissions) routes - metricMin (·.totalEmissions) routes))) := by
  refine ⟨?_, ?_, ?_⟩ <;>
    simp only [costScore, timeScore, emissionScore] <;>
    exact normalizeScore_eq_cases _ _ _

/-- C3 witnessed on the demo candidate set at Sea+Rail. -/
theorem C3_witness :
    ((metricMax (·.totalCost) demoRoutes = metricMin (·.totalCost) demoRoutes →
        costScore seaRail demoRoutes = 1) ∧
      (metricMax (·.totalCost) demoRoutes ≠ metricMin (·.totalCost) demoRoutes →
        costScore seaRail demoRoutes =
          1 - (seaRail.totalCost - metricMin (·.totalCost) demoRoutes) /
            (metricMax (·.totalCost) demoRoutes - metricMin (·.totalCost) demoRoutes))) ∧
    ((metricMax (·.transitDays) demoRoutes = metricMin (·.transitDays) demoRoutes →
        timeScore seaRail demoRoutes = 1) ∧
      (metricMax (·.transitDays) demoRoutes ≠ metricMin (·.transitDays) demoRoutes →
        timeScore seaRail demoRoutes =
          1 - (seaRail.transitDays - metricMin (·.transitDays) demoRoutes) /
            (metricMax (·.transitDays) demoRoutes - metricMin (·.transitDays) demoRoutes))) ∧
    ((metricMax (·.totalEmissions) demoRoutes = metricMin (·.totalEmissions) demoRoutes →
        emissionScore seaRail demoRoutes = 1) ∧
      (metricMax (·.totalEmissions) demoRoutes ≠ metricMin (·.totalEmissions) demoRoutes →
        emissionScore seaRail demoRoutes =
          1 - (seaRail.totalEmissions - metricMin (·.totalEmissions) demoRoutes) /
            (metricMax (·.totalEmissions) demoRoutes -
              metricMin (·.totalEmissions) demoRoutes))) :=
  C3_normalization_tie_and_formula demoRoutes seaRail (by simp [demoRoutes])

/-- C4: the final score is always the weighted sum of the three normalized
metrics under the weight triple of the priority, the four triples are
exactly `(0.70,0.15,0.15)`, `(0.15,0.70,0.15)`, `(0.15,0.15,0.70)` and
`(0.33,0.33,0.34)` for `cost`, `speed`, `carbon` and `balanced`, and no
other weight configuration is ever used. -/
theorem C4_weight_table (p : Priority) :
    (∀ (r : RouteData) (rs : List RouteData),
        calculate_priority_score r p rs =
          (weightTriple p).1 * costScore r rs + (weightTriple p).2.1 * timeScore r rs +
            (weightTriple p).2.2 * emissionScore r rs) ∧
      weightTriple .cost = (70/100, 15/100, 15/100) ∧
      weightTriple .speed = (15/100, 70/100, 15/100) ∧
      weightTriple .carbon = (15/100, 15/100, 70/100) ∧
      weightTriple .balanced = (33/100, 33/100, 34/100) ∧
      (weightTriple p = (70/100, 15/100, 15/100) ∨
        weightTriple p = (15/100, 70/100, 15/100) ∨
        weightTriple p = (15/100, 15/100, 70/100) ∨
        weightTriple p = (33/100, 33/100, 34/100)) := by
  refine ⟨?_, rfl, rfl, rfl, rfl, ?_⟩
  · intro r rs
    cases p <;> simp [calculate_priority_score, weightTriple]
  · cases p
    · exact Or.inl rfl
    · exact Or.inr (Or.inl rfl)
    · exact Or.inr (Or.inr (Or.inl rfl))
    · exact Or.inr (Or.inr (Or.inr rfl))

/-! ### Request validation at the API boundary -/

/-- A raw optimization request at the system boundary: `RouteRequest` of
`services/api.ts`, and the pydantic `RouteRequest` model of
`backend/api/routes.py` as quoted in `Priority_Implementation.md`
(`origin: str; destination: str; weight: float; priority: str =
Field(..., pattern="^(cost|speed|carbon|balanced)$")`). -/
structure RawRequest where
  origin : String
  destination : String
  weight : ℚ
  priority : String
deriving DecidableEq, Repr

/-- The regex `^(cost|speed|carbon|balanced)$` applied to the `priority`
field by the quoted pydantic model. -/
def priorityPatternOk (s : String) : Bool :=
  s = "cost" || s = "speed" || s = "carbon" || s = "balanced"

/-- Request validation as performed by the quoted pydantic `RouteRequest`
model: the only value constraint it imposes is the priority pattern; the
`weight` field is merely typed `float`, with no positivity check (and
`handleSubmit` in `App.tsx` checks only that the form fields are
non-empty). -/
def validateRequest (r : RawRequest) : Bool :=
  priorityPatternOk r.priority

/-! ### Carbon-credit resolution -/

/-- Quality tier of a carbon credit (`quality_tier` of `CarbonCredit` in
`services/api.ts`; the spec's enum {basic, standard, premium}). -/
inductive QualityTier where
  | basic
  | standard
  | premium
deriving DecidableEq, Repr

/-- A catalog carbon credit (`CarbonCredit` in `services/api.ts`). -/
structure CarbonCredit where
  id : ℕ
  price_per_ton_usd : ℚ
  quality_tier : QualityTier
  rating : ℚ
deriving DecidableEq, Repr

/-- A carbon-credit solution attached to a route
(`CarbonCreditSolution` in `services/api.ts`). -/
structure CarbonCreditSolution where
  needed : Bool
  overage_kg : Option ℚ
  recommended_credit : Option CarbonCredit
  cost_usd : Option ℚ
  reasoning : Option String
deriving DecidableEq, Repr

/-- Cost of covering `overage` kg with credit `c`:
`price_per_ton × (overage / 1000)`.  Modelled from the spec (§4.3). -/
def creditCoverCost (c : CarbonCredit) (overage : ℚ) : ℚ :=
  c.price_per_ton_usd * (overage / 1000)

/-- Whether a tier meets the minimum quality bar, standard or better. -/
def tierAtLeastStandard : QualityTier → Bool
  | .basic => false
  | .standard => true
  | .premium => true

/-- Strict selection preference between credits for a fixed overage:
lower covering cost first, ties broken by higher rating, then lower
identifier.  Modelled from the spec (§4.3 selection policy). -/
def prefOver (overage : ℚ) (a b : CarbonCredit) : Prop :=
  creditCoverCost a overage < creditCoverCost b overage ∨
    (creditCoverCost a overage = creditCoverCost b overage ∧
      (b.rating < a.rating ∨ (a.rating = b.rating ∧ a.id < b.id)))

instance prefOverDecidable (overage : ℚ) : DecidableRel (prefOver overage) :=
  fun a b => by
    unfold prefOver
    exact inferInstance

/-- Pick the most preferred credit of a list (`none` on an empty list).
Modelled from the spec (§4.3). -/
def selectBestCredit (overage : ℚ) : List CarbonCredit → Option CarbonCredit
  | [] => none
  | c :: cs => some (cs.foldl (fun best x => if prefOver overage x best then x else best) c)

/-- The credits of the catalog passing the quality/rating filter. -/
def eligibleCredits (minRating : ℚ) (catalog : List CarbonCredit) : List CarbonCredit :=
  catalog.filter fun c => tierAtLeastStandard c.quality_tier && decide (minRating ≤ c.rating)

/-- The rationale flag attached when the quality/rating filter is empty and
the resolution falls back to the cheapest credit overall. -/
def fallbackFlag : String := "below preferred quality threshold"

/-- Carbon-credit resolution for one route.  Modelled from the spec (§4.3):
`overage = total emissions − allowance`; if it is not positive the solution
is marked `needed: false`; otherwise the best credit among those with tier
standard-or-better and rating at or above the threshold is selected, and if
no credit passes the filter the cheapest credit overall is selected with the
fallback flag in the rationale instead of failing the request. -/
def resolveCredit (allowance minRating : ℚ) (catalog : List CarbonCredit)
    (emissions : ℚ) : CarbonCreditSolution :=
  let overage := emissions - allowance
  if overage ≤ 0 then
    { needed := false, overage_kg := none, recommended_credit := none,
      cost_usd := none, reasoning := none }
  else
    match selectBestCredit overage (eligibleCredits minRating catalog) with
    | some c =>
        { needed := true, overage_kg := some overage, recommended_credit := some c,
          cost_usd := some (creditCoverCost c overage),
          reasoning := some "meets quality threshold" }
    | none =>
        match selectBestCredit overage catalog with
        | some c =>
            { needed := true, overage_kg := some overage, recommended_credit := some c,
              cost_usd := some (creditCoverCost c overage),
              reasoning := some fallbackFlag }
        | none =>
            { needed := true, overage_kg := some overage, recommended_credit := none,
              cost_usd := some 0, reasoning := none }

theorem not_prefOver_iff (o : ℚ) (a b : CarbonCredit) :
    ¬ prefOver o a b ↔
      creditCoverCost b o ≤ creditCoverCost a o ∧
        (creditCoverCost a o = creditCoverCost b o →
          (a.rating ≤ b.rating ∧ (a.rating = b.rating → b.id ≤ a.id))) := by
  unfold prefOver
  push_neg
  rfl

theorem prefOver_irrefl (o : ℚ) (a : CarbonCredit) : ¬ prefOver o a a := by
  rintro (h | ⟨-, h | ⟨-, h⟩⟩)
  · exact lt_irrefl _ h
  · exact lt_irrefl _ h
  · exact lt_irrefl _ h

theorem not_prefOver_trans {o : ℚ} {x a r : CarbonCredit}
    (h1 : ¬ prefOver o x a) (h2 : ¬ prefOver o a r) : ¬ prefOver o x r := by
  rw [not_prefOver_iff] at h1 h2 ⊢
  obtain ⟨hc1, ht1⟩ := h1
  obtain ⟨hc2, ht2⟩ := h2
  refine ⟨le_trans hc2 hc1, ?_⟩
  intro hcxr
  have hcxa : creditCoverCost x o = creditCoverCost a o := by linarith
  have hcar : creditCoverCost a o = creditCoverCost r o := by linarith
  obtain ⟨hr1, hi1⟩ := ht1 hcxa
  obtain ⟨hr2, hi2⟩ := ht2 hcar
  refine ⟨le_trans hr1 hr2, ?_⟩
  intro hrxr
  have hrxa : x.rating = a.rating := by linarith
  have hrar : a.rating = r.rating := by linarith
  exact le_trans (hi2 hrar) (hi1 hrxa)

theorem prefOver_asymm {o : ℚ} {a b : CarbonCredit} (h : prefOver o a b) :
    ¬ prefOver o b a := by
  rw [not_prefOver_iff]
  rcases h with h | ⟨he, h⟩
  · exact ⟨le_of_lt h, fun hc => absurd hc.symm (ne_of_lt h)⟩
  · refine ⟨le_of_eq he, fun _ => ?_⟩
    rcases h with h | ⟨hr, hid⟩
    · exact ⟨le_of_lt h, fun hrba => absurd hrba (ne_of_lt h)⟩
    · exact ⟨le_of_eq hr.symm, fun _ => le_of_lt hid⟩

theorem foldl_best_mem (o : ℚ) (l : List CarbonCredit) :
    ∀ a : CarbonCredit,
      l.foldl (fun best x => if prefOver o x best then x else best) a = a ∨
        l.foldl (fun best x => if prefOver o x best then x else best) a ∈ l := by
  induction l with
  | nil => intro a; exact Or.inl rfl
  | cons y l ih =>
      intro a
      simp only [List.foldl_cons]
      rcases ih (if prefOver o y a then y else a) with h | h
      · rw [h]
        by_cases hp : prefOver o y a
        · rw [if_pos hp]; exact Or.inr (List.mem_cons_self _ _)
        · rw [if_neg hp]; exact Or.inl rfl
      · exact Or.inr (List.mem_cons_of_mem _ h)

theorem foldl_best_min (o : ℚ) (l : List CarbonCredit) :
    ∀ (a x : CarbonCredit), (x = a ∨ x ∈ l) →
      ¬ prefOver o x (l.foldl (fun best c => if prefOver o c best then c else best) a) := by
  induction l with
  | nil =>
      rintro a x (rfl | h)
      · exact prefOver_irrefl o x
      · cases h
  | cons y l ih =>
      intro a x hx
      simp only [List.foldl_cons]
      by_cases hp : prefOver o y a
      · rw [if_pos hp]
        rcases hx with h | hx
        · rw [h]
          exact not_prefOver_trans (prefOver_asymm hp) (ih y y (Or.inl rfl))
        · rcases List.mem_cons.mp hx with h | h
          · rw [h]
            exact ih y y (Or.inl rfl)
          · exact ih y x (Or.inr h)
      · rw [if_neg hp]
        rcases hx with h | hx
        · rw [h]
          exact ih a a (Or.inl rfl)
        · rcases List.mem_cons.mp hx with h | h
          · rw [h]
            exact not_prefOver_trans hp (ih a a (Or.inl rfl))
          · exact ih a x (Or.inr h)

/-- `selectBestCredit` returns a member of its input that no other member
is strictly preferred over. -/
theorem selectBestCredit_spec (o : ℚ) (l : List CarbonCredit) (hl : l ≠ []) :
    ∃ c, selectBestCredit o l = some c ∧ c ∈ l ∧ ∀ c' ∈ l, ¬ prefOver o c' c := by
  cases l with
  | nil => exact absurd rfl hl
  | cons a l =>
      refine ⟨l.foldl (fun best x => if prefOver o x best then x else best) a, rfl, ?_, ?_⟩
      · rcases foldl_best_mem o l a with h | h
        · rw [h]; exact List.mem_cons_self _ _
        · exact List.mem_cons_of_mem _ h
      · intro c' hc'
        rcases List.mem_cons.mp hc' with h | h
        · exact foldl_best_min o l a c' (Or.inl h)
        · exact foldl_best_min o l a c' (Or.inr h)

/-! ### Orchestration pipeline -/

/-- A candidate produced by RouteSource (`RouteOption` of
`services/api.ts`). -/
structure RouteCandidate where
  id : ℕ
  base_cost_usd : ℚ
  transit_days : ℚ
  reliability_score : ℚ
  segments : ℕ
deriving DecidableEq, Repr

/-- Per-candidate emissions data (`RouteEmissions` of `services/api.ts`). -/
structure EmissionsRecord where
  route_id : ℕ
  total_emissions_kg : ℚ
deriving DecidableEq, Repr

/-- Compliance status enum of the spec's data model. -/
inductive ComplianceStatus where
  | compliant
  | compliantWithOffset
  | nonCompliant
deriving DecidableEq, Repr

/-- Per-candidate compliance data (`RouteCompliance` of `services/api.ts`);
`regulatory_cost` can be negative, representing a net subsidy. -/
structure ComplianceRecord where
  route_id : ℕ
  regulatory_cost : ℚ
  status : ComplianceStatus
deriving DecidableEq, Repr

/-- The compliance defaults used when ComplianceSource fails for a
candidate.  Modelled from the spec (§4.1 step 2): status defaulted to
compliant, zero regulatory cost. -/
def defaultCompliance (id : ℕ) : ComplianceRecord := ⟨id, 0, .compliant⟩

/-- Fatal failures of the orchestrator (spec §7 taxonomy). -/
inductive FatalError where
  | invalidRequest
  | noRoutesFound
  | noViableRoutes
deriving DecidableEq, Repr

/-- The human-readable cause attached to a fatal failure. -/
def describeError : FatalError → String
  | .invalidRequest => "Invalid request"
  | .noRoutesFound => "No routes found"
  | .noViableRoutes => "No viable routes"

/-- An external source call issued by the orchestrator, recorded so that
"surfaced before any external call" is statable. -/
inductive ExternalCall where
  | routeSource
  | emissionsSource (candidate : ℕ)
  | complianceSource (candidate : ℕ)
deriving DecidableEq, Repr

/-- Parse the priority string into the four supported priorities. -/
def parsePriority (s : String) : Option Priority :=
  if s = "cost" then some .cost
  else if s = "speed" then some .speed
  else if s = "carbon" then some .carbon
  else if s = "balanced" then some .balanced
  else none

/-- The emissions record delivered for candidate `i`, looked up among the
arrival events in completion order (first match). -/
def firstEmissionsFor (i : ℕ) (events : List EmissionsRecord) : Option EmissionsRecord :=
  events.find? fun e => e.route_id == i

/-- The compliance record delivered for candidate `i`, looked up among the
arrival events in completion order (first match). -/
def firstComplianceFor (i : ℕ) (events : List ComplianceRecord) : Option ComplianceRecord :=
  events.find? fun c => c.route_id == i

/-- Merge one candidate with its arrived per-route data.  Modelled from the
spec (§4.1 step 2, §4.2, §4.3): a candidate with no emissions record is
dropped; a missing compliance record degrades to `defaultCompliance`; the
carbon-credit solution is resolved from the route's emissions and its cost
is added to the route's total cost before scoring. -/
def mergeCandidate (allowance minRating : ℚ) (catalog : List CarbonCredit)
    (emisEvents : List EmissionsRecord) (compEvents : List ComplianceRecord)
    (c : RouteCandidate) : Option RouteData :=
  match firstEmissionsFor c.id emisEvents with
  | none => none
  | some e =>
      let comp := (firstComplianceFor c.id compEvents).getD (defaultCompliance c.id)
      let sol := resolveCredit allowance minRating catalog e.total_emissions_kg
      some
        { id := c.id
          totalCost := c.base_cost_usd + comp.regulatory_cost + sol.cost_usd.getD 0
          transitDays := c.transit_days
          totalEmissions := e.total_emissions_kg
          reliability := c.reliability_score
          segments := c.segments }

/-- The surviving merged bundles, in candidate order. -/
def viableBundles (allowance minRating : ℚ) (catalog : List CarbonCredit)
    (cands : List RouteCandidate) (emisEvents : List EmissionsRecord)
    (compEvents : List ComplianceRecord) : List RouteData :=
  cands.filterMap (mergeCandidate allowance minRating catalog emisEvents compEvents)

/-- `cost_range` of `TradeOffAnalysis` in `services/api.ts`. -/
structure CostRange where
  min : ℚ
  max : ℚ
  savings_vs_worst : ℚ
  spread_pct : ℚ
deriving DecidableEq, Repr

/-- `time_range` of `TradeOffAnalysis` in `services/api.ts`. -/
structure TimeRange where
  min : ℚ
  max : ℚ
  delay_vs_fastest : ℚ
  spread_pct : ℚ
deriving DecidableEq, Repr

/-- `emissions_range` of `TradeOffAnalysis` in `services/api.ts`. -/
structure EmissionsRange where
  min : ℚ
  max : ℚ
  reduction_vs_worst_pct : ℚ
  spread_pct : ℚ
deriving DecidableEq, Repr

/-- `TradeOffAnalysis` of `services/api.ts`. -/
structure TradeOffAnalysis where
  cost_range : CostRange
  time_range : TimeRange
  emissions_range : EmissionsRange
  key_insights : List String
deriving DecidableEq, Repr

/-- The cost-savings insight string, rendered from the already-computed
`savings_vs_worst` field. -/
def savesInsight (amount : ℚ) : String :=
  "Recommended route saves $" ++ toString amount ++ " vs most expensive"

/-- The emissions-reduction insight string, rendered from the
already-computed `reduction_vs_worst_pct` field. -/
def reductionInsight (pct : ℚ) : String :=
  "Recommended route cuts emissions " ++ toString pct ++ " percent vs worst"

/-- The time-penalty insight string, rendered from the already-computed
`delay_vs_fastest` field. -/
def delayInsight (days : ℚ) : String :=
  "Recommended route is " ++ toString days ++ " days slower than fastest"

/-- Trade-off analysis across all surviving ranked routes.  Modelled from
the spec (§4.4): ranges over the three metrics, savings/delay/reduction
relative to the worst/fastest/dirtiest candidate, and insight strings
generated from the already-computed numeric fields — never re-derived. -/
def computeTradeOff (epsilonPct : ℚ) (routes : List RouteData) (rec : RouteData) :
    TradeOffAnalysis :=
  let cmin := metricMin (·.totalCost) routes
  let cmax := metricMax (·.totalCost) routes
  let tmin := metricMin (·.transitDays) routes
  let tmax := metricMax (·.transitDays) routes
  let emin := metricMin (·.totalEmissions) routes
  let emax := metricMax (·.totalEmissions) routes
  let costR : CostRange := ⟨cmin, cmax, cmax - rec.totalCost, (cmax - cmin) / cmax * 100⟩
  let timeR : TimeRange := ⟨tmin, tmax, rec.transitDays - tmin, (tmax - tmin) / tmax * 100⟩
  let emisR : EmissionsRange :=
    ⟨emin, emax, (emax - rec.totalEmissions) / emax * 100, (emax - emin) / emax * 100⟩
  { cost_range := costR
    time_range := timeR
    emissions_range := emisR
    key_insights :=
      (if rec.totalCost < cmax then [savesInsight costR.savings_vs_worst] else []) ++
        (if epsilonPct ≤ emisR.reduction_vs_worst_pct then
          [reductionInsight emisR.reduction_vs_worst_pct] else []) ++
        (if tmin < rec.transitDays then [delayInsight timeR.delay_vs_fastest] else []) }

/-- The recommendation payload of a successful response
(`recommendation` of `OptimizationResponse` in `services/api.ts`). -/
structure Recommendation where
  recommended_route : RouteData
  alternatives : List RouteData
  trade_off_analysis : TradeOffAnalysis
deriving DecidableEq, Repr

/-- `OptimizationResponse` of `services/api.ts`: `success` is mandatory,
`recommendation` and `error` are optional fields. -/
structure OptimizationResponse where
  success : Bool
  recommendation : Option Recommendation
  error : Option String
deriving DecidableEq, Repr

/-- The orchestration pipeline.  Modelled from the spec (§4.1): validate
the request (no external call is issued on an invalid one), invoke
RouteSource, fail with `NoRoutesFound` on failure or an empty candidate
set, fan out per-candidate emissions/compliance calls whose completions
arrive as the two event lists, drop candidates without emissions data,
fail with `NoViableRoutes` when none survive, and otherwise hand the
merged bundles to the optimization engine.  Returns the result together
with the external calls issued. -/
def orchestrate (allowance minRating epsilonPct : ℚ) (catalog : List CarbonCredit)
    (req : RawRequest) (routesResult : Option (List RouteCandidate))
    (emisEvents : List EmissionsRecord) (compEvents : List ComplianceRecord) :
    Except FatalError Recommendation × List ExternalCall :=
  match parsePriority req.priority with
  | none => (.error .invalidRequest, [])
  | some p =>
      match routesResult with
      | none => (.error .noRoutesFound, [.routeSource])
      | some [] => (.error .noRoutesFound, [.routeSource])
      | some (c :: cs) =>
          let cands := c :: cs
          let calls := ExternalCall.routeSource ::
            (cands.map fun x => ExternalCall.emissionsSource x.id) ++
              cands.map fun x => ExternalCall.complianceSource x.id
          let merged := viableBundles allowance minRating catalog cands emisEvents compEvents
          match rankRoutes p merged with
          | [] => (.error .noViableRoutes, calls)
          | best :: alts =>
              (.ok ⟨best, alts, computeTradeOff epsilonPct merged best⟩, calls)

/-- Final response assembly.  Modelled from the spec (§6): on any fatal
failure `success` is false, `error` carries the human-readable cause and
`recommendation` is absent; on success `recommendation` is present and
`error` absent. -/
def assembleResponse (result : Except FatalError Recommendation) : OptimizationResponse :=
  match result with
  | .error e => { success := false, recommendation := none, error := some (describeError e) }
  | .ok rec => { success := true, recommendation := some rec, error := none }

/-- End-to-end request processing: orchestrate, then assemble the response. -/
def processRequest (allowance minRating epsilonPct : ℚ) (catalog : List CarbonCredit)
    (req : RawRequest) (routesResult : Option (List RouteCandidate))
    (emisEvents : List EmissionsRecord) (compEvents : List ComplianceRecord) :
    OptimizationResponse × List ExternalCall :=
  let r := orchestrate allowance minRating epsilonPct catalog req routesResult
    emisEvents compEvents
  (assembleResponse r.1, r.2)

theorem parsePriority_eq_none_of_patternFalse {s : String}
    (h : priorityPatternOk s = false) : parsePriority s = none := by
  have h1 : s ≠ "cost" := by
    intro he; subst he; simp [priorityPatternOk] at h
  have h2 : s ≠ "speed" := by
    intro he; subst he; simp [priorityPatternOk] at h
  have h3 : s ≠ "carbon" := by
    intro he; subst he; simp [priorityPatternOk] at h
  have h4 : s ≠ "balanced" := by
    intro he; subst he; simp [priorityPatternOk] at h
  unfold parsePriority
  rw [if_neg h1, if_neg h2, if_neg h3, if_neg h4]

/-- C5 counterexample: the request `(Shanghai, Berlin, weight −5, cost)`
has weight ≤ 0 yet passes validation — the quoted pydantic model only
pattern-checks the priority and types `weight` as a bare `float`, so no
`InvalidRequest` is raised for a non-positive weight. -/
theorem C5_counterexample :
    validateRequest
        { origin := "Shanghai", destination := "Berlin", weight := -5,
          priority := "cost" } = true ∧
      ({ origin := "Shanghai", destination := "Berlin", weight := -5,
          priority := "cost" } : RawRequest).weight ≤ 0 := by
  constructor
  · rfl
  · norm_num

/-- C5 (amended): a request whose priority is not one of
{cost, speed, carbon, balanced} fails with `InvalidRequest` and no external
source call is issued; the weight field, however, is not validated at all —
request validation depends only on the priority pattern, so a weight ≤ 0
does not fail the request. -/
theorem C5_invalid_priority_rejected_weight_unchecked
    (allowance minRating epsilonPct : ℚ) (catalog : List CarbonCredit)
    (req : RawRequest) (routesResult : Option (List RouteCandidate))
    (emisEvents : List EmissionsRecord) (compEvents : List ComplianceRecord)
    (hbad : priorityPatternOk req.priority = false) :
    orchestrate allowance minRating epsilonPct catalog req routesResult
        emisEvents compEvents = (.error .invalidRequest, []) ∧
      ∀ r : RawRequest, validateRequest r = priorityPatternOk r.priority := by
  constructor
  · unfold orchestrate
    rw [parsePriority_eq_none_of_patternFalse hbad]
  · intro r; rfl

/-- C5 witnessed at a concrete request with the unsupported priority
`express`. -/
theorem C5_witness :
    orchestrate 0 0 0 []
        { origin := "Shanghai", destination := "Berlin", weight := 10,
          priority := "express" } none [] [] = (.error .invalidRequest, []) ∧
      ∀ r : RawRequest, validateRequest r = priorityPatternOk r.priority :=
  C5_invalid_priority_rejected_weight_unchecked 0 0 0 []
    { origin := "Shanghai", destination := "Berlin", weight := 10,
      priority := "express" } none [] [] (by rfl)

/-- C6: every fatal failure of a request produces a response with
`success = false`, an `error` field carrying the human-readable cause, and
an absent `recommendation` — never a partially populated recommendation. -/
theorem C6_fatal_failure_response_shape
    (allowance minRating epsilonPct : ℚ) (catalog : List CarbonCredit)
    (req : RawRequest) (routesResult : Option (List RouteCandidate))
    (emisEvents : List EmissionsRecord) (compEvents : List ComplianceRecord)
    (e : FatalError)
    (hfail : (orchestrate allowance minRating epsilonPct catalog req routesResult
        emisEvents compEvents).1 = .error e) :
    (processRequest allowance minRating epsilonPct catalog req routesResult
        emisEvents compEvents).1.success = false ∧
      (processRequest allowance minRating epsilonPct catalog req routesResult
        emisEvents compEvents).1.error = some (describeError e) ∧
      (processRequest allowance minRating epsilonPct catalog req routesResult
        emisEvents compEvents).1.recommendation = none := by
  simp only [processRequest]
  rw [hfail]
  exact ⟨rfl, rfl, rfl⟩

/-- C6 witnessed on a request whose route discovery returns zero
candidates, which fails with `NoRoutesFound`. -/
theorem C6_witness :
    (processRequest 0 0 0 []
        { origin := "Shanghai", destination := "Berlin", weight := 10,
          priority := "balanced" } (some []) [] []).1.success = false ∧
      (processRequest 0 0 0 []
        { origin := "Shanghai", destination := "Berlin", weight := 10,
          priority := "balanced" } (some []) [] []).1.error =
        some (describeError .noRoutesFound) ∧
      (processRequest 0 0 0 []
        { origin := "Shanghai", destination := "Berlin", weight := 10,
          priority := "balanced" } (some []) [] []).1.recommendation = none :=
  C6_fatal_failure_response_shape 0 0 0 []
    { origin := "Shanghai", destination := "Berlin", weight := 10,
      priority := "balanced" } (some []) [] [] .noRoutesFound (by rfl)

theorem selectBestCredit_eq_none_iff (o : ℚ) (l : List CarbonCredit) :
    selectBestCredit o l = none ↔ l = [] := by
  cases l <;> simp [selectBestCredit]

theorem resolveCredit_not_needed {allowance minRating emissions : ℚ}
    {catalog : List CarbonCredit} (h : emissions - allowance ≤ 0) :
    resolveCredit allowance minRating catalog emissions =
      { needed := false, overage_kg := none, recommended_credit := none,
        cost_usd := none, reasoning := none } := by
  simp only [resolveCredit]
  rw [if_pos h]

theorem resolveCredit_eligible {allowance minRating emissions : ℚ}
    {catalog : List CarbonCredit} (h : 0 < emissions - allowance)
    {c : CarbonCredit}
    (hsel : selectBestCredit (emissions - allowance)
      (eligibleCredits minRating catalog) = some c) :
    resolveCredit allowance minRating catalog emissions =
      { needed := true, overage_kg := some (emissions - allowance),
        recommended_credit := some c,
        cost_usd := some (creditCoverCost c (emissions - allowance)),
        reasoning := some "meets quality threshold" } := by
  simp only [resolveCredit]
  rw [if_neg (not_le.mpr h), hsel]

theorem resolveCredit_fallback {allowance minRating emissions : ℚ}
    {catalog : List CarbonCredit} (h : 0 < emissions - allowance)
    (hnone : selectBestCredit (emissions - allowance)
      (eligibleCredits minRating catalog) = none)
    {c : CarbonCredit}
    (hsel : selectBestCredit (emissions - allowance) catalog = some c) :
    resolveCredit allowance minRating catalog emissions =
      { needed := true, overage_kg := some (emissions - allowance),
        recommended_credit := some c,
        cost_usd := some (creditCoverCost c (emissions - allowance)),
        reasoning := some fallbackFlag } := by
  simp only [resolveCredit]
  rw [if_neg (not_le.mpr h), hnone, hsel]

theorem resolveCredit_empty_catalog {allowance minRating emissions : ℚ}
    {catalog : List CarbonCredit} (h : 0 < emissions - allowance)
    (hnone : selectBestCredit (emissions - allowance)
      (eligibleCredits minRating catalog) = none)
    (hcat : selectBestCredit (emissions - allowance) catalog = none) :
    resolveCredit allowance minRating catalog emissions =
      { needed := true, overage_kg := some (emissions - allowance),
        recommended_credit := none, cost_usd := some 0, reasoning := none } := by
  simp only [resolveCredit]
  rw [if_neg (not_le.mpr h), hnone, hcat]

theorem resolveCredit_needed_iff (allowance minRating emissions : ℚ)
    (catalog : List CarbonCredit) :
    ((resolveCredit allowance minRating catalog emissions).needed = false ↔
      emissions - allowance ≤ 0) := by
  by_cases h : emissions - allowance ≤ 0
  · rw [resolveCredit_not_needed h]
    simp [h]
  · have hpos : 0 < emissions - allowance := not_le.mp h
    cases hsel : selectBestCredit (emissions - allowance)
        (eligibleCredits minRating catalog) with
    | some c =>
        rw [resolveCredit_eligible hpos hsel]
        simp [h]
    | none =>
        cases hcat : selectBestCredit (emissions - allowance) catalog with
        | some c =>
            rw [resolveCredit_fallback hpos hsel hcat]
            simp [h]
        | none =>
            rw [resolveCredit_empty_catalog hpos hsel hcat]
            simp [h]

theorem resolveCredit_overage (allowance minRating emissions : ℚ)
    (catalog : List CarbonCredit)
    (hneed : (resolveCredit allowance minRating catalog emissions).needed = true) :
    (resolveCredit allowance minRating catalog emissions).overage_kg =
        some (emissions - allowance) ∧ 0 ≤ emissions - allowance := by
  by_cases h : emissions - allowance ≤ 0
  · rw [resolveCredit_not_needed h] at hneed
    cases hneed
  · have hpos : 0 < emissions - allowance := not_le.mp h
    refine ⟨?_, le_of_lt hpos⟩
    cases hsel : selectBestCredit (emissions - allowance)
        (eligibleCredits minRating catalog) with
    | some c => rw [resolveCredit_eligible hpos hsel]
    | none =>
        cases hcat : selectBestCredit (emissions - allowance) catalog with
        | some c => rw [resolveCredit_fallback hpos hsel hcat]
        | none => rw [resolveCredit_empty_catalog hpos hsel hcat]

/-- C7: carbon-credit resolution — the overage equals total emissions minus
the allowance and is non-negative whenever the solution is needed
(otherwise `needed` is false); when a credit passes the quality/rating
filter, the selected one minimizes `price_per_ton × (overage / 1000)` over
the filtered credits with ties broken by highest rating then lowest
identifier, and its cost is recorded; when no credit passes the filter,
the lowest-price credit overall is selected with the fallback flag in the
rationale instead of the request failing; and the credit cost is added to
the route's total cost before scoring (in the merged `RouteData`). -/
theorem C7_credit_resolution (allowance minRating emissions : ℚ)
    (catalog : List CarbonCredit) :
    ((resolveCredit allowance minRating catalog emissions).needed = false ↔
        emissions - allowance ≤ 0) ∧
      ((resolveCredit allowance minRating catalog emissions).needed = true →
        (resolveCredit allowance minRating catalog emissions).overage_kg =
            some (emissions - allowance) ∧ 0 ≤ emissions - allowance) ∧
      (0 < emissions - allowance → eligibleCredits minRating catalog ≠ [] →
        ∃ c, (resolveCredit allowance minRating catalog emissions).recommended_credit =
              some c ∧
          c ∈ eligibleCredits minRating catalog ∧
          (resolveCredit allowance minRating catalog emissions).cost_usd =
            some (creditCoverCost c (emissions - allowance)) ∧
          ∀ x ∈ eligibleCredits minRating catalog,
            creditCoverCost c (emissions - allowance) ≤
                creditCoverCost x (emissions - allowance) ∧
              (creditCoverCost x (emissions - allowance) =
                  creditCoverCost c (emissions - allowance) →
                x.rating ≤ c.rating ∧ (x.rating = c.rating → c.id ≤ x.id))) ∧
      (0 < emissions - allowance → eligibleCredits minRating catalog = [] →
        catalog ≠ [] →
        ∃ c, (resolveCredit allowance minRating catalog emissions).recommended_credit =
              some c ∧
          c ∈ catalog ∧
          (resolveCredit allowance minRating catalog emissions).reasoning =
            some fallbackFlag ∧
          ∀ x ∈ catalog, c.price_per_ton_usd ≤ x.price_per_ton_usd) ∧
      (∀ (cand : RouteCandidate) (e : EmissionsRecord)
          (emisEvents : List EmissionsRecord) (compEvents : List ComplianceRecord),
        firstEmissionsFor cand.id emisEvents = some e →
        mergeCandidate allowance minRating catalog emisEvents compEvents cand =
          some
            { id := cand.id
              totalCost := cand.base_cost_usd +
                ((firstComplianceFor cand.id compEvents).getD
                  (defaultCompliance cand.id)).regulatory_cost +
                (resolveCredit allowance minRating catalog
                  e.total_emissions_kg).cost_usd.getD 0
              transitDays := cand.transit_days
              totalEmissions := e.total_emissions_kg
              reliability := cand.reliability_score
              segments := cand.segments }) := by
  refine ⟨resolveCredit_needed_iff allowance minRating emissions catalog,
    resolveCredit_overage allowance minRating emissions catalog, ?_, ?_, ?_⟩
  · intro hpos hne
    obtain ⟨c, hsel, hmem, hmin⟩ :=
      selectBestCredit_spec (emissions - allowance) (eligibleCredits minRating catalog) hne
    refine ⟨c, ?_, hmem, ?_, ?_⟩
    · rw [resolveCredit_eligible hpos hsel]
    · rw [resolveCredit_eligible hpos hsel]
    · intro x hx
      have := hmin x hx
      rw [not_prefOver_iff] at this
      exact this
  · intro hpos helig hcat
    have hnone : selectBestCredit (emissions - allowance)
        (eligibleCredits minRating catalog) = none := by
      rw [selectBestCredit_eq_none_iff]
      exact helig
    obtain ⟨c, hsel, hmem, hmin⟩ :=
      selectBestCredit_spec (emissions - allowance) catalog hcat
    refine ⟨c, ?_, hmem, ?_, ?_⟩
    · rw [resolveCredit_fallback hpos hnone hsel]
    · rw [resolveCredit_fallback hpos hnone hsel]
    · intro x hx
      have hle := ((not_prefOver_iff _ _ _).mp (hmin x hx)).1
      have hfac : 0 < (emissions - allowance) / 1000 := by positivity
      unfold creditCoverCost at hle
      exact le_of_mul_le_mul_right (by linarith [hle]) hfac
  · intro cand e emisEvents compEvents he
    unfold mergeCandidate
    rw [he]

/-- C7 witnessed on a two-credit catalog with overage 500 kg: the standard
credit with rating 4.5 passes the filter and is selected. -/
theorem C7_witness :
    ∃ c, (resolveCredit 100 4
          [⟨1, 15, .standard, 9/2⟩, ⟨2, 10, .basic, 3⟩] 600).recommended_credit =
        some c ∧
      c ∈ eligibleCredits 4 [⟨1, 15, .standard, 9/2⟩, ⟨2, 10, .basic, 3⟩] ∧
      (resolveCredit 100 4
          [⟨1, 15, .standard, 9/2⟩, ⟨2, 10, .basic, 3⟩] 600).cost_usd =
        some (creditCoverCost c (600 - 100)) ∧
      ∀ x ∈ eligibleCredits 4 [⟨1, 15, .standard, 9/2⟩, ⟨2, 10, .basic, 3⟩],
        creditCoverCost c (600 - 100) ≤ creditCoverCost x (600 - 100) ∧
          (creditCoverCost x (600 - 100) = creditCoverCost c (600 - 100) →
            x.rating ≤ c.rating ∧ (x.rating = c.rating → c.id ≤ x.id)) :=
  (C7_credit_resolution 100 4 600 [⟨1, 15, .standard, 9/2⟩, ⟨2, 10, .basic, 3⟩]).2.2.1
    (by norm_num)
    (by
      have : eligibleCredits 4 [⟨1, 15, .standard, 9/2⟩, ⟨2, 10, .basic, 3⟩] =
          [⟨1, 15, .standard, 9/2⟩] := by
        simp only [eligibleCredits, List.filter, tierAtLeastStandard]
        norm_num
      rw [this]
      exact List.cons_ne_nil _ _)

theorem mem_three_ite_singleton_append {α : Type} {s a b d : α}
    {c1 c2 c3 : Prop} [Decidable c1] [Decidable c2] [Decidable c3]
    (hs : s ∈ (if c1 then [a] else []) ++ (if c2 then [b] else []) ++
      (if c3 then [d] else [])) :
    s = a ∨ s = b ∨ s = d := by
  by_cases h1 : c1 <;> by_cases h2 : c2 <;> by_cases h3 : c3 <;>
    simp [h1, h2, h3] at hs <;> tauto

/-- C8: in the trade-off analysis, `cost_range.savings_vs_worst` equals
`cost_range.max` minus the recommended route's total cost; when the
recommended route is not the most expensive, the "saves $X" insight is
present and rendered from that very field; and every key-insight string is
one of the three renderings of the already-computed `*_range` fields —
insights are generated from the computed numbers and never re-derived. -/
theorem C8_tradeoff_insights_consistent (epsilonPct : ℚ) (routes : List RouteData)
    (rec : RouteData) (hrec : rec ∈ routes) :
    (computeTradeOff epsilonPct routes rec).cost_range.savings_vs_worst =
        (computeTradeOff epsilonPct routes rec).cost_range.max - rec.totalCost ∧
      (rec.totalCost < (computeTradeOff epsilonPct routes rec).cost_range.max →
        savesInsight (computeTradeOff epsilonPct routes rec).cost_range.savings_vs_worst ∈
          (computeTradeOff epsilonPct routes rec).key_insights) ∧
      ∀ s ∈ (computeTradeOff epsilonPct routes rec).key_insights,
        s = savesInsight
              (computeTradeOff epsilonPct routes rec).cost_range.savings_vs_worst ∨
          s = reductionInsight
              (computeTradeOff epsilonPct routes rec).emissions_range.reduction_vs_worst_pct ∨
          s = delayInsight
              (computeTradeOff epsilonPct routes rec).time_range.delay_vs_fastest := by
  have hmem : rec ∈ routes := hrec
  clear hmem
  refine ⟨rfl, ?_, ?_⟩
  · intro h
    simp only [computeTradeOff] at h ⊢
    rw [if_pos h]
    simp
  · intro s hs
    simp only [computeTradeOff] at hs ⊢
    exact mem_three_ite_singleton_append hs

/-- C8 witnessed on the demo candidate set with Sea+Rail recommended. -/
theorem C8_witness :
    (computeTradeOff 5 demoRoutes seaRail).cost_range.savings_vs_worst =
        (computeTradeOff 5 demoRoutes seaRail).cost_range.max - seaRail.totalCost ∧
      (seaRail.totalCost < (computeTradeOff 5 demoRoutes seaRail).cost_range.max →
        savesInsight (computeTradeOff 5 demoRoutes seaRail).cost_range.savings_vs_worst ∈
          (computeTradeOff 5 demoRoutes seaRail).key_insights) ∧
      ∀ s ∈ (computeTradeOff 5 demoRoutes seaRail).key_insights,
        s = savesInsight
              (computeTradeOff 5 demoRoutes seaRail).cost_range.savings_vs_worst ∨
          s = reductionInsight
              (computeTradeOff 5 demoRoutes seaRail).emissions_range.reduction_vs_worst_pct ∨
          s = delayInsight
              (computeTradeOff 5 demoRoutes seaRail).time_range.delay_vs_fastest :=
  C8_tradeoff_insights_consistent 5 demoRoutes seaRail (by simp [demoRoutes])

theorem find_first_perm_of_nodup_keys {α : Type} (key : α → ℕ) (i : ℕ) :
    ∀ {l₁ l₂ : List α}, List.Perm l₁ l₂ → (l₁.map key).Nodup →
      l₁.find? (fun x => key x == i) = l₂.find? (fun x => key x == i) := by
  intro l₁ l₂ hperm
  induction hperm with
  | nil => intro _; rfl
  | cons x hp ih =>
      intro hnod
      cases hpx : (key x == i) with
      | true => simp only [List.find?_cons, hpx]
      | false =>
          simp only [List.find?_cons, hpx]
          exact ih (List.nodup_cons.mp hnod).2
  | swap x y l =>
      intro hnod
      have h1 : key y ∉ List.map key (x :: l) := (List.nodup_cons.mp hnod).1
      have hxy : key y ≠ key x := by
        intro h
        exact h1 (by rw [h]; exact List.mem_map_of_mem key (List.mem_cons_self x l))
      cases hpy : (key y == i) with
      | true =>
          cases hpx : (key x == i) with
          | true =>
              exact absurd ((eq_of_beq hpy).trans (eq_of_beq hpx).symm) hxy
          | false => simp only [List.find?_cons, hpy, hpx]
      | false =>
          cases hpx : (key x == i) with
          | true => simp only [List.find?_cons, hpy, hpx]
          | false => simp only [List.find?_cons, hpy, hpx]
  | trans h₁ h₂ ih₁ ih₂ =>
      intro hnod
      exact (ih₁ hnod).trans (ih₂ (((h₁.map key).nodup_iff).mp hnod))

/-- C9: two executions of the pipeline on the same request, whose
per-candidate emissions and compliance calls complete in different relative
orders but deliver the same per-route data, produce identical results —
the ranking is a function of the fully merged per-route data and the
priority, not of completion order. -/
theorem C9_ranking_completion_order_independent
    (allowance minRating epsilonPct : ℚ) (catalog : List CarbonCredit)
    (req : RawRequest) (routesResult : Option (List RouteCandidate))
    (e₁ e₂ : List EmissionsRecord) (c₁ c₂ : List ComplianceRecord)
    (hpe : List.Perm e₁ e₂) (hpc : List.Perm c₁ c₂)
    (hne : (e₁.map (·.route_id)).Nodup) (hnc : (c₁.map (·.route_id)).Nodup) :
    orchestrate allowance minRating epsilonPct catalog req routesResult e₁ c₁ =
      orchestrate allowance minRating epsilonPct catalog req routesResult e₂ c₂ := by
  have hE : ∀ i, firstEmissionsFor i e₁ = firstEmissionsFor i e₂ := by
    intro i
    unfold firstEmissionsFor
    exact find_first_perm_of_nodup_keys (fun e => e.route_id) i hpe hne
  have hC : ∀ i, firstComplianceFor i c₁ = firstComplianceFor i c₂ := by
    intro i
    unfold firstComplianceFor
    exact find_first_perm_of_nodup_keys (fun c => c.route_id) i hpc hnc
  have hMerge : mergeCandidate allowance minRating catalog e₁ c₁ =
      mergeCandidate allowance minRating catalog e₂ c₂ := by
    funext c
    unfold mergeCandidate
    rw [hE c.id, hC c.id]
  unfold orchestrate
  cases parsePriority req.priority with
  | none => rfl
  | some p =>
      cases routesResult with
      | none => rfl
      | some cands =>
          cases cands with
          | nil => rfl
          | cons c cs =>
              have hv : viableBundles allowance minRating catalog (c :: cs) e₁ c₁ =
                  viableBundles allowance minRating catalog (c :: cs) e₂ c₂ := by
                unfold viableBundles
                rw [hMerge]
              simp only [hv]

/-- C9 witnessed: swapping the completion order of two emissions records
and two compliance records leaves the pipeline result unchanged. -/
theorem C9_witness :
    orchestrate 10000 4 5 []
        { origin := "Shanghai", destination := "Berlin", weight := 10,
          priority := "balanced" }
        (some [⟨1, 2000, 20, 92/100, 2⟩, ⟨3, 8000, 2, 95/100, 1⟩])
        [⟨1, 450⟩, ⟨3, 4200⟩] [⟨1, -100, .compliant⟩, ⟨3, 150, .compliantWithOffset⟩] =
      orchestrate 10000 4 5 []
        { origin := "Shanghai", destination := "Berlin", weight := 10,
          priority := "balanced" }
        (some [⟨1, 2000, 20, 92/100, 2⟩, ⟨3, 8000, 2, 95/100, 1⟩])
        [⟨3, 4200⟩, ⟨1, 450⟩] [⟨3, 150, .compliantWithOffset⟩, ⟨1, -100, .compliant⟩] :=
  C9_ranking_completion_order_independent 10000 4 5 []
    { origin := "Shanghai", destination := "Berlin", weight := 10,
      priority := "balanced" }
    (some [⟨1, 2000, 20, 92/100, 2⟩, ⟨3, 8000, 2, 95/100, 1⟩])
    [⟨1, 450⟩, ⟨3, 4200⟩] [⟨3, 4200⟩, ⟨1, 450⟩]
    [⟨1, -100, .compliant⟩, ⟨3, 150, .compliantWithOffset⟩]
    [⟨3, 150, .compliantWithOffset⟩, ⟨1, -100, .compliant⟩]
    (List.Perm.swap _ _ _) (List.Perm.swap _ _ _) (by simp) (by simp)

/-! ### Frontend mode icons -/

/-- The four lucide icon components referenced by the `icons` object shared
by `App.tsx` and the `part_001` variant. -/
inductive ModeIcon where
  | shipIcon
  | planeIcon
  | truckIcon
  | trainIcon
deriving DecidableEq, Repr

/-- The `icons` object `{ship: Ship, plane: Plane, truck: Truck,
train: Train}` of both frontends; `none` models an index miss
(`icons[mode]` evaluating to `undefined`). -/
def icons (k : String) : Option ModeIcon :=
  if k = "ship" then some .shipIcon
  else if k = "plane" then some .planeIcon
  else if k = "truck" then some .truckIcon
  else if k = "train" then some .trainIcon
  else none

/-- The `modeMap` of `getModeIcon` in `App.tsx`:
`{sea: ship, air: plane, rail: train, truck: truck}`. -/
def modeMap (mode : String) : Option String :=
  if mode = "sea" then some "ship"
  else if mode = "air" then some "plane"
  else if mode = "rail" then some "train"
  else if mode = "truck" then some "truck"
  else none

/-- `getModeIcon` of `App.tsx`: `iconKey = modeMap[mode] || mode`, then
`icons[iconKey]`, rendering the icon when found and returning `null`
(`none`) otherwise rather than throwing. -/
def getModeIcon (mode : String) : Option ModeIcon :=
  icons ((modeMap mode).getD mode)

/-- `getModeIcon` of the `part_001` variant: `icons[mode]` is dereferenced
directly and rendered unconditionally, so `none` here models the
`undefined` dereference — a crash at render time — for any mode outside
the four icon keys. -/
def getModeIconLegacy (mode : String) : Option ModeIcon :=
  icons mode

/-- C10: the `App.tsx` `getModeIcon` is total — it yields an icon for each
of the seven mode strings and returns `null` (not a crash) on every other
string — while the `part_001` variant dereferences an undefined icon for
any mode outside {ship, train, plane, truck}. -/
theorem C10_mode_icon_totality (mode : String) :
    (mode ∈ (["sea", "air", "rail", "truck", "ship", "plane", "train"] :
        List String) → (getModeIcon mode).isSome = true) ∧
      (mode ∉ (["sea", "air", "rail", "truck", "ship", "plane", "train"] :
        List String) → getModeIcon mode = none) ∧
      (mode ∉ (["ship", "train", "plane", "truck"] : List String) →
        getModeIconLegacy mode = none) := by
  refine ⟨?_, ?_, ?_⟩
  · intro h
    fin_cases h <;> rfl
  · intro h
    simp only [List.mem_cons, List.not_mem_nil, or_false, not_or] at h
    obtain ⟨h1, h2, h3, h4, h5, h6, h7⟩ := h
    unfold getModeIcon modeMap icons
    rw [if_neg h1, if_neg h2, if_neg h3, if_neg h4, Option.getD_none,
      if_neg h5, if_neg h6, if_neg h4, if_neg h7]
  · intro h
    simp only [List.mem_cons, List.not_mem_nil, or_false, not_or] at h
    obtain ⟨h1, h2, h3, h4⟩ := h
    unfold getModeIconLegacy icons
    rw [if_neg h1, if_neg h3, if_neg h4, if_neg h2]

/-- C10 witnessed: `sea` renders an icon in `App.tsx`, an unknown mode
returns `null` there, and the same `sea` mode hits an undefined icon in the
`part_001` variant. -/
theorem C10_witness :
    (getModeIcon "sea").isSome = true ∧ getModeIcon "hovercraft" = none ∧
      getModeIconLegacy "sea" = none :=
  ⟨(C10_mode_icon_totality "sea").1 (by decide),
    (C10_mode_icon_totality "hovercraft").2.1 (by decide),
    (C10_mode_icon_totality "sea").2.2 (by decide)⟩

end CarbonRouting
